import Mathlib

/-!
# Verification of the `memora-cli` terminal renderer (`src/memora-cli/src/ui.rs`)

Shallow embedding conventions:

* Rust `f32` trait/bias values are embedded as exact rationals (`ℚ`); the
  concrete inputs used in counterexamples and witnesses are dyadic rationals
  that are exactly representable in `f32` and whose products with 40 are
  exact, so the statements transfer to the floating-point code unchanged.
* Rust `usize` is `ℕ`.  The cast `expr as usize` truncates toward zero and
  saturates at zero for negative values, which for rationals is
  `Int.toNat ∘ Int.floor` (`rust_as_usize`).  The unsigned subtraction
  `bar_length - filled` is an overflow-checked operation (`checked_sub`):
  a `none` result models the arithmetic-overflow panic (debug) /
  unallocatable wrapped `repeat` (release); either way the render fails.
* Rust `&str` values whose byte structure matters are embedded as
  `List Char` together with their UTF-8 byte lengths (`utf8_len`); the byte
  slice `&s[..n]` is `take_bytes n s`, which is `none` exactly when Rust
  panics (index past the end or not on a character boundary).
* ANSI colour decoration from the `colored` crate is elided: it wraps the
  payload in escape codes and does not change which lines are printed or
  the characters of the bar glyphs the claims are about.
* Console output is modelled as the list of printed lines (structured
  `FactLine`s for `print_fact`, plain strings for the agents table).
-/

namespace Ui

/-- Overflow-checked `usize` subtraction: `none` models the panic on
underflow of `a - b` in the Rust source. -/
def checked_sub (a b : Nat) : Option Nat :=
  if b ≤ a then some (a - b) else none

/-- The Rust cast `q as usize` for a float value `q`: truncate toward zero,
saturating at 0 for negative inputs.  For every `q`, truncation toward zero
followed by saturation at 0 agrees with `(⌊q⌋).toNat`. -/
def rust_as_usize (q : ℚ) : ℕ :=
  (⌊q⌋).toNat

/-- Number of bytes of the UTF-8 encoding of one scalar value. -/
def utf8_char_len (c : Char) : Nat :=
  if c.toNat < 128 then 1
  else if c.toNat < 2048 then 2
  else if c.toNat < 65536 then 3
  else 4

/-- Rust `str::len`: the length in bytes of the UTF-8 encoding. -/
def utf8_len (s : List Char) : Nat :=
  (s.map utf8_char_len).sum

/-- The Rust byte slice `&s[..n]`: `some` of the first `n` bytes decoded
back to characters when `n` lands on a character boundary within the
string, `none` (a panic in Rust) otherwise. -/
def take_bytes : Nat → List Char → Option (List Char)
  | 0, _ => some []
  | _ + 1, [] => none
  | n, c :: cs =>
    if utf8_char_len c ≤ n then
      (take_bytes (n - utf8_char_len c) cs).map (fun p => c :: p)
    else
      none

/-- The content preview computed by `print_stored_memory`
(ui.rs:213-217): byte length over 60 truncates to the first 57 bytes and
appends an ellipsis; the byte slice panics (`none`) when byte 57 is not a
character boundary. -/
def stored_memory_preview (content : List Char) : Option (List Char) :=
  if 60 < utf8_len content then
    (take_bytes 57 content).map (fun p => p ++ ['.', '.', '.'])
  else
    some content

/-- `print_stored_memory` (ui.rs:206-220) as its list of printed lines;
`none` when the preview slice panics. -/
def print_stored_memory (doc_id : String) (content : List Char)
    (is_async : Bool) : Option (List String) :=
  (stored_memory_preview content).map (fun p =>
    [(if is_async then "⏳ Queued for background processing"
      else "✓ Stored successfully"),
     "  Document ID: " ++ doc_id,
     "  Content: " ++ String.mk p,
     ""])

/-- Rust `char::is_whitespace`: the Unicode `White_Space` property. -/
def rust_is_whitespace (c : Char) : Bool :=
  let n := c.toNat
  (9 ≤ n && n ≤ 13) || n == 32 || n == 133 || n == 160 || n == 5760 ||
  (8192 ≤ n && n ≤ 8202) || n == 8232 || n == 8233 || n == 8239 ||
  n == 8287 || n == 12288

/-- Rust `str::trim`: drop whitespace from both ends. -/
def rust_trim (s : List Char) : List Char :=
  ((s.dropWhile rust_is_whitespace).reverse.dropWhile rust_is_whitespace).reverse

/-- Rust `u8::to_ascii_lowercase`, lifted to the character it encodes:
maps `A`..`Z` to `a`..`z` and keeps every other character. -/
def to_ascii_lowercase (c : Char) : Char :=
  if 65 ≤ c.toNat && c.toNat ≤ 90 then Char.ofNat (c.toNat + 32) else c

/-- Rust `str::eq_ignore_ascii_case`. -/
def eq_ignore_ascii_case (a b : List Char) : Bool :=
  a.map to_ascii_lowercase == b.map to_ascii_lowercase

/-- The acceptance test of `prompt_confirmation` (ui.rs:229): the trimmed
input equals `y` or `yes` up to ASCII case. -/
def confirmation_accepts (input : List Char) : Bool :=
  eq_ignore_ascii_case (rust_trim input) ['y'] ||
  eq_ignore_ascii_case (rust_trim input) ['y', 'e', 's']

/-- `prompt_confirmation` (ui.rs:222-230).  The two fallible I/O steps the
source marks with `?` — flushing stdout and reading one line — are passed
in as `Except` values; `?` is the monadic bind, so either error propagates
unchanged and a successful read is reduced with `confirmation_accepts`. -/
def prompt_confirmation (flush_result : Except String Unit)
    (read_result : Except String (List Char)) : Except String Bool := do
  let _ ← flush_result
  let input ← read_result
  pure (confirmation_accepts input)

/-- The five trait scores and the bias strength of an agent
(`PersonalityTraits` in the `api` module, consumed by ui.rs). -/
structure PersonalityTraits where
  openness : ℚ
  conscientiousness : ℚ
  extraversion : ℚ
  agreeableness : ℚ
  neuroticism : ℚ
  bias_strength : ℚ

/-- An agent profile (`AgentProfile` in the `api` module). -/
structure AgentProfile where
  agent_id : String
  name : String
  background : String
  personality : PersonalityTraits

/-- `let filled = (*value * bar_length as f32) as usize` with
`bar_length = 40` (ui.rs:261-262, 285-286, 313-314, 359-360). -/
def bar_filled_count (value : ℚ) : ℕ :=
  rust_as_usize (value * 40)

/-- One 40-cell bar of `print_profile` (ui.rs:260-265 for the five traits
and ui.rs:284-288 for the bias bar, which run the same code): `filled`
cells of `█` followed by `empty = 40 - filled` cells of `░`; the unsigned
subtraction makes the render fail (`none`) when `filled > 40`. -/
def profile_bar (value : ℚ) : Option (List Char) :=
  (checked_sub 40 (bar_filled_count value)).map (fun e =>
    List.replicate (bar_filled_count value) '█' ++ List.replicate e '░')

/-- `let has_change = delta.abs() >= 0.01` (ui.rs:318-319, 363-364). -/
def has_change (old_value new_value : ℚ) : Bool :=
  decide ((1 : ℚ)/100 ≤ |new_value - old_value|)

/-- One 40-cell bar of `print_personality_delta` (ui.rs:312-331 for the
five traits and ui.rs:359-375 for the bias bar): the bar is computed from
the new value; when the change reaches the threshold the last
`pattern_filled = min filled 3` filled cells are drawn as `▓`
(`filled.saturating_sub(pattern_filled)` is truncated subtraction on ℕ),
otherwise the bar is the plain filled/empty bar. -/
def delta_bar (old_value new_value : ℚ) : Option (List Char) :=
  (checked_sub 40 (bar_filled_count new_value)).map (fun e =>
    let filled := bar_filled_count new_value
    if has_change old_value new_value then
      let pattern_filled := min filled 3
      List.replicate (filled - pattern_filled) '█' ++
        List.replicate pattern_filled '▓' ++ List.replicate e '░'
    else
      List.replicate filled '█' ++ List.replicate e '░')

/-- Decimal digit character. -/
def digit_char (d : Nat) : Char :=
  Char.ofNat (48 + d)

/-- Decimal digits of a natural number, most significant first; the fuel
argument bounds the recursion depth and `n + 1` is always enough. -/
def nat_to_chars_aux : Nat → Nat → List Char → List Char
  | 0, _, acc => acc
  | fuel + 1, n, acc =>
    if n < 10 then digit_char n :: acc
    else nat_to_chars_aux fuel (n / 10) (digit_char (n % 10) :: acc)

/-- Decimal rendering of a natural number. -/
def nat_to_chars (n : Nat) : List Char :=
  nat_to_chars_aux (n + 1) n []

/-- Decimal rendering of an integer. -/
def int_to_chars (i : ℤ) : List Char :=
  if i < 0 then '-' :: nat_to_chars i.natAbs else nat_to_chars i.natAbs

/-- Rounding half to even, the tie-breaking rule of Rust float
formatting. -/
def round_half_to_even (q : ℚ) : ℤ :=
  let f := ⌊q⌋
  if q - f < 1/2 then f
  else if 1/2 < q - f then f + 1
  else if f % 2 = 0 then f else f + 1

/-- The `{:.0}` rendering of a float value: its nearest integer, ties to
even. -/
def format_f0 (q : ℚ) : List Char :=
  int_to_chars (round_half_to_even q)

/-- The trailing percentage text of one `print_personality_delta` row
(ui.rs:341-345, 377-381): an arrow before the new percentage exactly when
the change reaches the threshold. -/
def delta_suffix (old_value new_value : ℚ) : List Char :=
  (if has_change old_value new_value then [' ', '→', ' '] else [' ']) ++
    format_f0 (new_value * 100) ++ ['%']

/-- The five labelled trait values of a profile, in render order
(ui.rs:252-258). -/
def trait_values (p : PersonalityTraits) : List ℚ :=
  [p.openness, p.conscientiousness, p.extraversion, p.agreeableness,
   p.neuroticism]

/-- The six bars `print_profile` draws (five traits then the bias bar);
`none` when any row's empty-cell subtraction underflows. -/
def print_profile_bars (p : PersonalityTraits) : Option (List (List Char)) :=
  (trait_values p ++ [p.bias_strength]).mapM profile_bar

/-- The six bars `print_personality_delta` draws (five traits then the
bias bar), each computed from the old/new pair of the same field. -/
def print_personality_delta_bars (po pn : PersonalityTraits) :
    Option (List (List Char)) :=
  ((trait_values po ++ [po.bias_strength]).zip
    (trait_values pn ++ [pn.bias_strength])).mapM
      (fun v => delta_bar v.1 v.2)

/-- A fact record (`Fact` in the `api` module, consumed by ui.rs). -/
structure Fact where
  text : String
  fact_type : Option String
  activation : Option ℚ
  context : Option String
  occurred_start : Option String
  occurred_end : Option String
  event_date : Option String
  mentioned_at : Option String
  document_id : Option String

/-- One line printed by `print_fact`, stripped of ANSI colour. -/
inductive FactLine where
  | header (icon : String) (tag : String) (activation : Option ℚ)
  | body (t : String)
  | contextLine (c : String)
  | occurredPoint (d : String)
  | occurredRange (s e : String)
  | dateLine (d : String)
  | mentionedLine (m : String)
  | documentLine (d : String)
  | blank
deriving DecidableEq

/-- The emoji chosen for a fact type string (ui.rs:29-34). -/
def fact_icon (fact_type : String) : String :=
  if fact_type = "world" then "🌍"
  else if fact_type = "agent" then "🤖"
  else if fact_type = "opinion" then "💭"
  else "📝"

/-- Rust `char::to_ascii_uppercase`. -/
def to_ascii_uppercase (c : Char) : Char :=
  if 97 ≤ c.toNat && c.toNat ≤ 122 then Char.ofNat (c.toNat - 32) else c

/-- Rust `str::to_uppercase` restricted to ASCII, which covers the fact
type strings this module receives. -/
def ascii_uppercase (s : String) : String :=
  String.mk (s.toList.map to_ascii_uppercase)

/-- One optional metadata line: printed exactly when the field is
present (each `if let Some(x) = ...` block of `print_fact`). -/
def opt_line (f : String → FactLine) : Option String → List FactLine
  | some s => [f s]
  | none => []

/-- The temporal lines of `print_fact` (ui.rs:53-70): a point line when
`occurred_start` and `occurred_end` are present and equal, a range line
when present and different, a point-style line when only `occurred_start`
is present, and the legacy `Date` line when `occurred_start` is absent
and `event_date` is present. -/
def temporal_lines (fact : Fact) : List FactLine :=
  match fact.occurred_start with
  | some s =>
    match fact.occurred_end with
    | some e =>
      if s = e then [FactLine.occurredPoint s]
      else [FactLine.occurredRange s e]
    | none => [FactLine.occurredPoint s]
  | none =>
    match fact.event_date with
    | some d => [FactLine.dateLine d]
    | none => []

/-- `print_fact` (ui.rs:19-83) as the list of lines it prints: the
header (icon, bracketed uppercased type tag, and the activation score
exactly when `show_activation` holds and the field is present), the text
body, then the conditional metadata lines in source order — context,
the temporal line, mentioned-at, document id — and a final blank line. -/
def print_fact (fact : Fact) (show_activation : Bool) : List FactLine :=
  let ft := fact.fact_type.getD "unknown"
  [FactLine.header (fact_icon ft) ("[" ++ ascii_uppercase ft ++ "]")
      (if show_activation then fact.activation else none),
   FactLine.body fact.text] ++
  opt_line FactLine.contextLine fact.context ++
  temporal_lines fact ++
  opt_line FactLine.mentionedLine fact.mentioned_at ++
  opt_line FactLine.documentLine fact.document_id ++
  [FactLine.blank]

/-- A fact whose `occurred_end` and `event_date` are present but whose
`occurred_start` is absent: the input refuting claim C6. -/
def fact_c6 : Fact :=
  { text := "t", fact_type := none, activation := none, context := none,
    occurred_start := none, occurred_end := some "2021-06-01",
    event_date := some "2020-01-01", mentioned_at := none,
    document_id := none }

/-- A fact whose only temporal field is `occurred_end`: the input
refuting claim C7. -/
def fact_c7 : Fact :=
  { text := "t", fact_type := none, activation := none, context := none,
    occurred_start := none, occurred_end := some "2022-05-05",
    event_date := none, mentioned_at := none, document_id := none }

/-- A point-in-time fact (equal `occurred_start` and `occurred_end`). -/
def fact_point : Fact :=
  { text := "t", fact_type := some "world", activation := none,
    context := none, occurred_start := some "2024-01-01",
    occurred_end := some "2024-01-01", event_date := none,
    mentioned_at := none, document_id := none }

/-- A range fact (differing `occurred_start` and `occurred_end`). -/
def fact_range : Fact :=
  { text := "t", fact_type := some "world", activation := none,
    context := none, occurred_start := some "2024-01-01",
    occurred_end := some "2024-02-01", event_date := none,
    mentioned_at := none, document_id := none }

/-- Is this line the temporal-information line (in any of its three
phrasings)? -/
def is_temporal_line : FactLine → Bool
  | FactLine.occurredPoint _ => true
  | FactLine.occurredRange _ _ => true
  | FactLine.dateLine _ => true
  | _ => false

/-- Is this line the legacy `Date` phrasing? -/
def is_date_line : FactLine → Bool
  | FactLine.dateLine _ => true
  | _ => false

/-- Is this line the context line? -/
def is_context_line : FactLine → Bool
  | FactLine.contextLine _ => true
  | _ => false

/-- Is this line the mentioned-at line? -/
def is_mentioned_line : FactLine → Bool
  | FactLine.mentionedLine _ => true
  | _ => false

/-- Is this line the document-id line? -/
def is_document_line : FactLine → Bool
  | FactLine.documentLine _ => true
  | _ => false

/-- An agent record (`Agent` in the `api` module). -/
structure Agent where
  agent_id : List Char

/-- Rust `Iterator::max` over the mapped lengths: `None` exactly on the
empty list. -/
def rust_iter_max : List Nat → Option Nat
  | [] => none
  | x :: xs =>
    match rust_iter_max xs with
    | none => some x
    | some m => some (max x m)

/-- The column width of `print_agents_table` (ui.rs:137-139):
`agents.iter().map(|a| a.agent_id.len()).max().unwrap_or(8).max(8)`,
where `len` is the UTF-8 byte length. -/
def id_width (agents : List Agent) : ℕ :=
  max ((rust_iter_max (agents.map (fun a => utf8_len a.agent_id))).getD 8) 8

/-- The three lines of `print_section_header` (ui.rs:13-17). -/
def section_header_lines (title : String) : List String :=
  ["", "━━━ " ++ title ++ " ━━━", ""]

/-- Left-justified padding `{:<width}` of Rust formatting: pad with
spaces on the right up to `w` characters. -/
def pad_right (s : List Char) (w : ℕ) : List Char :=
  s ++ List.replicate (w - s.length) ' '

/-- `print_agents_table` (ui.rs:129-163) as the list of lines it prints:
the section header with the agent count, then either the empty-state
message (and an early return, so no table) or the bordered one-column
table whose inner width is `id_width agents + 2`. -/
def print_agents_table (agents : List Agent) : List String :=
  section_header_lines ("Agents (" ++ toString agents.length ++ ")") ++
  if agents.isEmpty then
    ["  No agents found."]
  else
    let w := id_width agents
    ["  ┌" ++ String.mk (List.replicate (w + 2) '─') ++ "┐",
     "  │ " ++ String.mk (pad_right "Agent ID".toList w) ++ " │",
     "  ├" ++ String.mk (List.replicate (w + 2) '─') ++ "┤"] ++
    agents.map (fun a =>
      "  │ " ++ String.mk (pad_right a.agent_id w) ++ " │") ++
    ["  └" ++ String.mk (List.replicate (w + 2) '─') ++ "┘", ""]

/-- The box-drawing characters of the agents table border. -/
def border_chars : List Char :=
  ['┌', '┐', '└', '┘', '├', '┤', '│', '─']

/-! ## Helper lemmas -/

theorem bar_filled_le_forty {v : ℚ} (h1 : v ≤ 1) : bar_filled_count v ≤ 40 := by
  unfold bar_filled_count rust_as_usize
  have h40 : v * 40 ≤ ((40 : ℤ) : ℚ) := by push_cast; nlinarith
  have : ⌊v * 40⌋ ≤ 40 := by
    calc ⌊v * 40⌋ ≤ ⌊((40 : ℤ) : ℚ)⌋ := Int.floor_mono h40
    _ = 40 := Int.floor_intCast 40
  exact Int.toNat_le.mpr this

theorem bar_filled_cast {v : ℚ} (h0 : 0 ≤ v) :
    ((bar_filled_count v : ℤ)) = ⌊v * 40⌋ := by
  unfold bar_filled_count rust_as_usize
  exact Int.toNat_of_nonneg (Int.floor_nonneg.mpr (by nlinarith))

theorem profile_bar_in_range {v : ℚ} (h1 : v ≤ 1) :
    profile_bar v =
      some (List.replicate (bar_filled_count v) '█' ++
        List.replicate (40 - bar_filled_count v) '░') := by
  unfold profile_bar checked_sub
  rw [if_pos (bar_filled_le_forty h1)]
  rfl

theorem count_fill_cells (n m : ℕ) :
    (List.replicate n '█' ++ List.replicate m '░').count '█' = n ∧
      (List.replicate n '█' ++ List.replicate m '░').count '░' = m := by
  constructor <;>
    simp [List.count_append, List.count_replicate]

/-! ## Claim C1 -/

/-- Claim C1 is false as stated: at trait value `33/64` (exactly
representable in `f32`, and `33/64 * 40 = 20.625` is exact as well) the
bar `print_profile` renders has 20 filled cells, while
`round(value * 40) = round 20.625 = 21`. -/
theorem C1_round_counterexample :
    (profile_bar ((33 : ℚ)/64)).map (fun b => b.count '█') = some 20 ∧
      round ((33 : ℚ)/64 * 40) = 21 := by
  have hfl : ⌊(33 : ℚ)/64 * 40⌋ = 20 := by
    rw [Int.floor_eq_iff]
    norm_num
  have hf : bar_filled_count ((33 : ℚ)/64) = 20 := by
    unfold bar_filled_count rust_as_usize
    rw [hfl]
    rfl
  refine ⟨?_, ?_⟩
  · rw [profile_bar_in_range (by norm_num), hf]
    simp [List.count_append, List.count_replicate]
  · rw [round_eq, Int.floor_eq_iff]
    norm_num

/-- Claim C1 (amended): the number of filled cells in the 40-cell bar
rendered by `print_profile` for an in-range value is `⌊value * 40⌋` —
the Rust cast truncates the product instead of rounding it — and the
spec's three examples are unaffected by the correction: value `0.5`
yields 20 filled cells, value `1.0` yields 40 filled cells and value
`0.0` yields 0 filled cells. -/
theorem C1_bar_fill_truncates (v : ℚ) (h0 : 0 ≤ v) (h1 : v ≤ 1) :
    (∃ b, profile_bar v = some b ∧ b.length = 40 ∧
      ((b.count '█' : ℤ)) = ⌊v * 40⌋ ∧ b.count '░' = 40 - b.count '█') ∧
    (profile_bar ((1 : ℚ)/2)).map (fun b => b.count '█') = some 20 ∧
    (profile_bar (1 : ℚ)).map (fun b => b.count '█') = some 40 ∧
    (profile_bar (0 : ℚ)).map (fun b => b.count '█') = some 0 := by
  have key : ∀ w : ℚ, w ≤ 1 →
      (profile_bar w).map (fun b => b.count '█') = some (bar_filled_count w) := by
    intro w hw
    rw [profile_bar_in_range hw]
    simp [(count_fill_cells (bar_filled_count w) (40 - bar_filled_count w)).1]
  refine ⟨?_, ?_, ?_, ?_⟩
  · refine ⟨List.replicate (bar_filled_count v) '█' ++
      List.replicate (40 - bar_filled_count v) '░',
      profile_bar_in_range h1, ?_, ?_, ?_⟩
    · have := bar_filled_le_forty h1
      simp [List.length_append, List.length_replicate]
      omega
    · rw [(count_fill_cells _ _).1]
      exact bar_filled_cast h0
    · rw [(count_fill_cells _ _).1, (count_fill_cells _ _).2]
  · have hfl : ⌊(1 : ℚ)/2 * 40⌋ = 20 := by
      rw [Int.floor_eq_iff]
      norm_num
    rw [key _ (by norm_num)]
    unfold bar_filled_count rust_as_usize
    rw [hfl]
    rfl
  · have hfl : ⌊(1 : ℚ) * 40⌋ = 40 := by
      rw [Int.floor_eq_iff]
      norm_num
    rw [key _ le_rfl]
    unfold bar_filled_count rust_as_usize
    rw [hfl]
    rfl
  · have hfl : ⌊(0 : ℚ) * 40⌋ = 0 := by
      rw [Int.floor_eq_iff]
      norm_num
    rw [key _ (by norm_num)]
    unfold bar_filled_count rust_as_usize
    rw [hfl]
    rfl

/-- Witness for `C1_bar_fill_truncates` at value `1/2`. -/
theorem C1_witness :
    (0 : ℚ) ≤ 1/2 ∧ (1 : ℚ)/2 ≤ 1 ∧
    ((∃ b, profile_bar ((1 : ℚ)/2) = some b ∧ b.length = 40 ∧
      ((b.count '█' : ℤ)) = ⌊(1 : ℚ)/2 * 40⌋ ∧
      b.count '░' = 40 - b.count '█') ∧
    (profile_bar ((1 : ℚ)/2)).map (fun b => b.count '█') = some 20 ∧
    (profile_bar (1 : ℚ)).map (fun b => b.count '█') = some 40 ∧
    (profile_bar (0 : ℚ)).map (fun b => b.count '█') = some 0) :=
  ⟨by norm_num, by norm_num,
    C1_bar_fill_truncates (1/2) (by norm_num) (by norm_num)⟩

/-! ## Claim C4 -/

/-- Claim C4 is false as stated: at value `5/4` (exact in `f32`,
`5/4 * 40 = 50` exact) the filled count 50 exceeds 40, the unsigned
subtraction computing the empty-cell count underflows, and
`print_profile` panics instead of rendering an overflowing bar. -/
theorem C4_panic_counterexample :
    profile_bar ((5 : ℚ)/4) = none ∧ (1 : ℚ) < 5/4 := by
  have hfl : ⌊(5 : ℚ)/4 * 40⌋ = 50 := by
    rw [Int.floor_eq_iff]
    norm_num
  have hf : bar_filled_count ((5 : ℚ)/4) = 50 := by
    unfold bar_filled_count rust_as_usize
    rw [hfl]
    rfl
  refine ⟨?_, by norm_num⟩
  unfold profile_bar checked_sub
  rw [hf, if_neg (by omega)]
  rfl

/-- Claim C4 (amended): `print_profile` neither clamps nor rejects a
value above `1.0`, but rendering does not always succeed: it succeeds
exactly when `value * 40 < 41` (then the bar is the fully filled 40-cell
bar, so it never visually overflows the 40-cell width), and for
`value * 40 ≥ 41` — i.e. `value ≥ 1.025` — the unsigned subtraction
computing the empty-cell count underflows and `print_profile` panics. -/
theorem C4_out_of_range (v : ℚ) (h1 : 1 < v) :
    ((profile_bar v).isSome = true ↔ v * 40 < 41) ∧
    (v * 40 < 41 → profile_bar v = some (List.replicate 40 '█')) := by
  have hnn : (0 : ℚ) ≤ v := le_of_lt (lt_trans one_pos h1)
  have hcast := bar_filled_cast hnn
  constructor
  · unfold profile_bar checked_sub
    by_cases hle : bar_filled_count v ≤ 40
    · rw [if_pos hle]
      constructor
      · intro _
        by_contra hcon
        push_neg at hcon
        have h41 : (41 : ℤ) ≤ ⌊v * 40⌋ :=
          Int.le_floor.mpr (by exact_mod_cast hcon)
        omega
      · intro _
        rfl
    · rw [if_neg hle]
      constructor
      · intro hcontra
        exact absurd hcontra (by simp)
      · intro h41
        exfalso
        apply hle
        have hfl40 : ⌊v * 40⌋ ≤ 40 := by
          by_contra hc
          push_neg at hc
          have h41le : ((41 : ℤ) : ℚ) ≤ v * 40 := Int.le_floor.mp (by omega)
          have : (41 : ℚ) ≤ v * 40 := by exact_mod_cast h41le
          linarith
        unfold bar_filled_count rust_as_usize
        exact Int.toNat_le.mpr hfl40
  · intro h41
    have hfl : ⌊v * 40⌋ = 40 := by
      rw [Int.floor_eq_iff]
      constructor
      · push_cast
        nlinarith
      · push_cast
        linarith
    have hf : bar_filled_count v = 40 := by
      unfold bar_filled_count rust_as_usize
      rw [hfl]
      rfl
    unfold profile_bar checked_sub
    rw [hf, if_pos (by omega)]
    simp

/-- Witness for `C4_out_of_range` at value `81/80 = 1.0125`. -/
theorem C4_witness :
    (1 : ℚ) < 81/80 ∧
    (((profile_bar ((81 : ℚ)/80)).isSome = true ↔ (81 : ℚ)/80 * 40 < 41) ∧
      ((81 : ℚ)/80 * 40 < 41 →
        profile_bar ((81 : ℚ)/80) = some (List.replicate 40 '█'))) :=
  ⟨by norm_num, C4_out_of_range (81/80) (by norm_num)⟩

/-! ## Claim C10 -/

/-- Claim C10: for every value in `[0, 1]` the filled count is at most
40, so the unsigned subtraction computing the empty-cell count cannot
underflow — both in `print_profile` and in `print_personality_delta`,
whichever branch the change threshold selects — and the rendered bar
always has exactly 40 cells. -/
theorem C10_no_underflow :
    (∀ v : ℚ, 0 ≤ v → v ≤ 1 →
      bar_filled_count v ≤ 40 ∧
      ∃ b, profile_bar v = some b ∧ b.length = 40) ∧
    (∀ old_v new_v : ℚ, 0 ≤ new_v → new_v ≤ 1 →
      ∃ b, delta_bar old_v new_v = some b ∧ b.length = 40) := by
  constructor
  · intro v _ h1
    have hle := bar_filled_le_forty h1
    refine ⟨hle, _, profile_bar_in_range h1, ?_⟩
    simp [List.length_append, List.length_replicate]
    omega
  · intro old_v new_v _ h1
    have hle := bar_filled_le_forty (v := new_v) h1
    have hmin : min (bar_filled_count new_v) 3 ≤ bar_filled_count new_v :=
      min_le_left _ _
    unfold delta_bar checked_sub
    rw [if_pos hle]
    refine ⟨_, rfl, ?_⟩
    by_cases hc : has_change old_v new_v
    · simp [hc, List.length_append, List.length_replicate]
      omega
    · simp [hc, List.length_append, List.length_replicate]
      omega

/-! ## Claim C9 -/

theorem has_change_iff (old_v new_v : ℚ) :
    has_change old_v new_v = true ↔ (1 : ℚ)/100 ≤ |new_v - old_v| := by
  unfold has_change
  exact decide_eq_true_iff

theorem delta_bar_changed {old_v new_v : ℚ} (h1 : new_v ≤ 1)
    (hc : has_change old_v new_v = true) :
    delta_bar old_v new_v =
      some (List.replicate
          (bar_filled_count new_v - min (bar_filled_count new_v) 3) '█' ++
        List.replicate (min (bar_filled_count new_v) 3) '▓' ++
        List.replicate (40 - bar_filled_count new_v) '░') := by
  unfold delta_bar checked_sub
  rw [if_pos (bar_filled_le_forty h1)]
  simp [hc]

theorem delta_bar_unchanged {old_v new_v : ℚ} (h1 : new_v ≤ 1)
    (hc : has_change old_v new_v = false) :
    delta_bar old_v new_v =
      some (List.replicate (bar_filled_count new_v) '█' ++
        List.replicate (40 - bar_filled_count new_v) '░') := by
  unfold delta_bar checked_sub
  rw [if_pos (bar_filled_le_forty h1)]
  simp [hc]

theorem nat_to_chars_aux_mem {c : Char} :
    ∀ (fuel n : ℕ) (acc : List Char), c ∈ nat_to_chars_aux fuel n acc →
      (∃ d, d < 10 ∧ c = digit_char d) ∨ c ∈ acc := by
  intro fuel
  induction fuel with
  | zero =>
    intro n acc h
    simp only [nat_to_chars_aux] at h
    exact Or.inr h
  | succ fuel ih =>
    intro n acc h
    simp only [nat_to_chars_aux] at h
    by_cases hn : n < 10
    · rw [if_pos hn] at h
      rcases List.mem_cons.mp h with h | h
      · exact Or.inl ⟨n, hn, h⟩
      · exact Or.inr h
    · rw [if_neg hn] at h
      rcases ih _ _ h with hd | hmem
      · exact Or.inl hd
      · rcases List.mem_cons.mp hmem with h | h
        · exact Or.inl ⟨n % 10, Nat.mod_lt n (by norm_num), h⟩
        · exact Or.inr h

theorem arrow_not_mem_format_f0 (q : ℚ) : '→' ∉ format_f0 q := by
  intro h
  have hnat : ∀ m : ℕ, '→' ∈ nat_to_chars m → False := by
    intro m hm
    unfold nat_to_chars at hm
    rcases nat_to_chars_aux_mem _ _ _ hm with ⟨d, hd, he⟩ | hin
    · interval_cases d <;> exact absurd he (by decide)
    · exact absurd hin (List.not_mem_nil _)
  unfold format_f0 int_to_chars at h
  by_cases hneg : round_half_to_even q < 0
  · rw [if_pos hneg] at h
    rcases List.mem_cons.mp h with h | h
    · exact absurd h (by decide)
    · exact hnat _ h
  · rw [if_neg hneg] at h
    exact hnat _ h

theorem arrow_mem_delta_suffix_iff (old_v new_v : ℚ) :
    '→' ∈ delta_suffix old_v new_v ↔ has_change old_v new_v = true := by
  unfold delta_suffix
  by_cases hc : has_change old_v new_v
  · rw [if_pos hc]
    exact iff_of_true
      (List.mem_append.mpr (Or.inl (List.mem_append.mpr (Or.inl (by decide))))) hc
  · rw [if_neg hc]
    refine iff_of_false (fun h => ?_) hc
    rcases List.mem_append.mp h with h1 | h2
    · rcases List.mem_append.mp h1 with ha | hb
      · exact absurd (List.mem_singleton.mp ha) (by decide)
      · exact arrow_not_mem_format_f0 _ hb
    · exact absurd (List.mem_singleton.mp h2) (by decide)

/-- Claim C9 is false as stated: with old value `1/2` and new value
`1/16` (both exact in `f32`; the delta `7/16` is far above the `0.01`
threshold) the new value fills only 2 cells, so the bar renders
`min(filled, 3) = 2` cells in the changed glyph `▓` — not "the last 3
filled cells" the claim promises. -/
theorem C9_marking_counterexample :
    (delta_bar ((1 : ℚ)/2) (1/16)).map (fun b => b.count '▓') = some 2 ∧
      (1 : ℚ)/100 ≤ |(1 : ℚ)/16 - 1/2| := by
  have hthr : (1 : ℚ)/100 ≤ |(1 : ℚ)/16 - 1/2| := by
    rw [abs_of_neg (by norm_num)]
    norm_num
  have hc : has_change ((1 : ℚ)/2) (1/16) = true := (has_change_iff _ _).mpr hthr
  have hfl : ⌊(1 : ℚ)/16 * 40⌋ = 2 := by
    rw [Int.floor_eq_iff]
    norm_num
  have hf : bar_filled_count ((1 : ℚ)/16) = 2 := by
    unfold bar_filled_count rust_as_usize
    rw [hfl]
    rfl
  refine ⟨?_, hthr⟩
  rw [delta_bar_changed (by norm_num) hc, hf]
  decide

/-- Claim C9 (amended): `print_personality_delta` renders the bar from
the new value; when `|new - old| ≥ 0.01` the last `min(filled, 3)` filled
cells — the last 3 whenever at least 3 cells are filled — are rendered in
the distinct changed glyph `▓` and a `→` arrow precedes the percentage,
and when the change is below the threshold the bar is the plain
filled/empty bar with no `▓` cell and no arrow. -/
theorem C9_delta_rendering (old_v new_v : ℚ) (_h0 : 0 ≤ new_v)
    (h1 : new_v ≤ 1) :
    ((1 : ℚ)/100 ≤ |new_v - old_v| →
      ∃ b, delta_bar old_v new_v = some b ∧ b.length = 40 ∧
        b.take (bar_filled_count new_v) =
          List.replicate
              (bar_filled_count new_v - min (bar_filled_count new_v) 3) '█' ++
            List.replicate (min (bar_filled_count new_v) 3) '▓' ∧
        b.drop (bar_filled_count new_v) =
          List.replicate (40 - bar_filled_count new_v) '░' ∧
        '→' ∈ delta_suffix old_v new_v) ∧
    (|new_v - old_v| < 1/100 →
      ∃ b, delta_bar old_v new_v = some b ∧ b.length = 40 ∧
        b = List.replicate (bar_filled_count new_v) '█' ++
          List.replicate (40 - bar_filled_count new_v) '░' ∧
        b.count '▓' = 0 ∧
        '→' ∉ delta_suffix old_v new_v) := by
  have hle := bar_filled_le_forty h1
  have hmin : min (bar_filled_count new_v) 3 ≤ bar_filled_count new_v :=
    min_le_left _ _
  constructor
  · intro hthr
    have hc : has_change old_v new_v = true := (has_change_iff _ _).mpr hthr
    refine ⟨_, delta_bar_changed h1 hc, ?_, ?_, ?_,
      (arrow_mem_delta_suffix_iff _ _).mpr hc⟩
    · simp only [List.length_append, List.length_replicate]
      omega
    · exact List.take_left' (by
        simp only [List.length_append, List.length_replicate]
        omega)
    · exact List.drop_left' (by
        simp only [List.length_append, List.length_replicate]
        omega)
  · intro hthr
    have hc : has_change old_v new_v = false := by
      unfold has_change
      exact decide_eq_false (not_le.mpr hthr)
    refine ⟨_, delta_bar_unchanged h1 hc, ?_, rfl, ?_, ?_⟩
    · simp only [List.length_append, List.length_replicate]
      omega
    · have e1 : ('█' == '▓') = false := by decide
      have e2 : ('░' == '▓') = false := by decide
      simp [List.count_append, List.count_replicate, e1, e2]
    · rw [arrow_mem_delta_suffix_iff]
      simp [hc]

/-- Witness for `C9_delta_rendering`: old `1/2`, new `13/25 = 0.52`
(delta `1/50 ≥ 1/100`) shows the changed bar and arrow; old `1/2`, new
`101/200 = 0.505` (delta `1/200 < 1/100`) shows the plain bar without
arrow. -/
theorem C9_witness :
    ((0 : ℚ) ≤ 13/25 ∧ (13 : ℚ)/25 ≤ 1 ∧
      (1 : ℚ)/100 ≤ |(13 : ℚ)/25 - 1/2| ∧
      ∃ b, delta_bar ((1 : ℚ)/2) ((13 : ℚ)/25) = some b ∧ b.length = 40 ∧
        b.take (bar_filled_count ((13 : ℚ)/25)) =
          List.replicate (bar_filled_count ((13 : ℚ)/25) -
              min (bar_filled_count ((13 : ℚ)/25)) 3) '█' ++
            List.replicate (min (bar_filled_count ((13 : ℚ)/25)) 3) '▓' ∧
        b.drop (bar_filled_count ((13 : ℚ)/25)) =
          List.replicate (40 - bar_filled_count ((13 : ℚ)/25)) '░' ∧
        '→' ∈ delta_suffix ((1 : ℚ)/2) ((13 : ℚ)/25)) ∧
    ((0 : ℚ) ≤ 101/200 ∧ (101 : ℚ)/200 ≤ 1 ∧
      |(101 : ℚ)/200 - 1/2| < 1/100 ∧
      ∃ b, delta_bar ((1 : ℚ)/2) ((101 : ℚ)/200) = some b ∧ b.length = 40 ∧
        b = List.replicate (bar_filled_count ((101 : ℚ)/200)) '█' ++
          List.replicate (40 - bar_filled_count ((101 : ℚ)/200)) '░' ∧
        b.count '▓' = 0 ∧
        '→' ∉ delta_suffix ((1 : ℚ)/2) ((101 : ℚ)/200)) := by
  have hthr1 : (1 : ℚ)/100 ≤ |(13 : ℚ)/25 - 1/2| := by
    rw [abs_of_pos (by norm_num)]
    norm_num
  have hthr2 : |(101 : ℚ)/200 - 1/2| < 1/100 := by
    rw [abs_of_pos (by norm_num)]
    norm_num
  exact ⟨⟨by norm_num, by norm_num, hthr1,
      (C9_delta_rendering (1/2) (13/25) (by norm_num) (by norm_num)).1 hthr1⟩,
    ⟨by norm_num, by norm_num, hthr2,
      (C9_delta_rendering (1/2) (101/200) (by norm_num) (by norm_num)).2 hthr2⟩⟩

/-! ## Claims C2 and C3 -/

theorem utf8_len_cons (c : Char) (s : List Char) :
    utf8_len (c :: s) = utf8_char_len c + utf8_len s := by
  simp [utf8_len]

theorem take_bytes_spec :
    ∀ (s : List Char) (n : ℕ) (p : List Char), take_bytes n s = some p →
      utf8_len p = n ∧ ∃ rest, p ++ rest = s := by
  intro s
  induction s with
  | nil =>
    intro n p h
    cases n with
    | zero =>
      simp only [take_bytes, Option.some.injEq] at h
      subst h
      exact ⟨rfl, [], rfl⟩
    | succ n => simp [take_bytes] at h
  | cons c cs ih =>
    intro n p h
    cases n with
    | zero =>
      simp only [take_bytes, Option.some.injEq] at h
      subst h
      exact ⟨rfl, c :: cs, rfl⟩
    | succ n =>
      simp only [take_bytes] at h
      by_cases hc : utf8_char_len c ≤ n + 1
      · rw [if_pos hc] at h
        rcases Option.map_eq_some'.mp h with ⟨p', hp', rfl⟩
        rcases ih _ _ hp' with ⟨hlen, rest, hrest⟩
        refine ⟨?_, rest, by rw [List.cons_append, hrest]⟩
        rw [utf8_len_cons, hlen]
        omega
      · rw [if_neg hc] at h
        exact absurd h (by simp)

/-- Claim C2 is refuted by the code: on a content string of 56 ASCII
characters followed by four `é` (64 bytes, so over the 60-byte limit),
byte 57 falls in the middle of the first two-byte `é` and the byte slice
`&content[..57]` in `print_stored_memory` panics; the embedding returns
`none` exactly at the Rust panic. -/
theorem C2_slice_panics :
    stored_memory_preview (List.replicate 56 'a' ++ ['é', 'é', 'é', 'é']) =
      none ∧
    print_stored_memory "doc-1"
      (List.replicate 56 'a' ++ ['é', 'é', 'é', 'é']) false = none := by
  constructor
  · decide
  · decide

/-- Claim C3 is false as stated: the source measures the content in
bytes, not characters.  The string `a` followed by 30 `é` has 31
characters (at most 60), so the claim requires the preview to be the
content verbatim, but its UTF-8 length is 61 bytes, so the code truncates
it. -/
theorem C3_chars_counterexample :
    ('a' :: List.replicate 30 'é').length ≤ 60 ∧
      stored_memory_preview ('a' :: List.replicate 30 'é') ≠
        some ('a' :: List.replicate 30 'é') := by
  constructor
  · decide
  · decide

/-- Claim C3 (amended): the preview limit of `print_stored_memory` is
measured in UTF-8 bytes.  Content of byte length at most 60 is previewed
verbatim; for longer content, whenever the 57-byte slice succeeds (byte
57 on a character boundary) the preview is that 57-byte prefix of the
content followed by `...`. -/
theorem C3_preview_bytes (content : List Char) :
    (utf8_len content ≤ 60 → stored_memory_preview content = some content) ∧
    (60 < utf8_len content → ∀ p, take_bytes 57 content = some p →
      stored_memory_preview content = some (p ++ ['.', '.', '.']) ∧
      utf8_len p = 57 ∧ ∃ rest, p ++ rest = content) := by
  constructor
  · intro hle
    unfold stored_memory_preview
    rw [if_neg (by omega)]
  · intro hgt p hp
    rcases take_bytes_spec content 57 p hp with ⟨hlen, rest, hrest⟩
    refine ⟨?_, hlen, rest, hrest⟩
    unfold stored_memory_preview
    rw [if_pos hgt, hp]
    rfl

/-- Witness for `C3_preview_bytes`: a 10-character ASCII content is
previewed verbatim, and the spec's example of a 100-character ASCII
content is truncated to its first 57 bytes plus the ellipsis (60
characters in total). -/
theorem C3_witness :
    (utf8_len (List.replicate 10 'a') ≤ 60 ∧
      stored_memory_preview (List.replicate 10 'a') =
        some (List.replicate 10 'a')) ∧
    (60 < utf8_len (List.replicate 100 'a') ∧
      take_bytes 57 (List.replicate 100 'a') = some (List.replicate 57 'a') ∧
      (stored_memory_preview (List.replicate 100 'a') =
          some (List.replicate 57 'a' ++ ['.', '.', '.']) ∧
        utf8_len (List.replicate 57 'a') = 57 ∧
        ∃ rest, List.replicate 57 'a' ++ rest = List.replicate 100 'a')) :=
  ⟨⟨by decide, (C3_preview_bytes (List.replicate 10 'a')).1 (by decide)⟩,
    ⟨by decide, by decide,
      (C3_preview_bytes (List.replicate 100 'a')).2 (by decide)
        (List.replicate 57 'a') (by decide)⟩⟩

/-! ## Claim C5 -/

/-- Claim C5: `prompt_confirmation` propagates an I/O failure of the
flush or of the line read unchanged as an error; on a successful read it
returns `Ok true` exactly when the trimmed input equals `y` or `yes`
compared ASCII-case-insensitively, and `Ok false` otherwise; concretely
it accepts `"y"`, `"Y"`, `"yes"`, `"YES"` and `" y \n"`, and rejects
`""`, `"n"` and `"maybe"`. -/
theorem C5_prompt_confirmation :
    (∀ (e : String) (r : Except String (List Char)),
      prompt_confirmation (Except.error e) r = Except.error e) ∧
    (∀ e : String,
      prompt_confirmation (Except.ok ()) (Except.error e) = Except.error e) ∧
    (∀ input : List Char,
      (prompt_confirmation (Except.ok ()) (Except.ok input) = Except.ok true ↔
        (eq_ignore_ascii_case (rust_trim input) ['y'] = true ∨
         eq_ignore_ascii_case (rust_trim input) ['y', 'e', 's'] = true))) ∧
    confirmation_accepts ['y'] = true ∧
    confirmation_accepts ['Y'] = true ∧
    confirmation_accepts ['y', 'e', 's'] = true ∧
    confirmation_accepts ['Y', 'E', 'S'] = true ∧
    confirmation_accepts [' ', 'y', ' ', '\n'] = true ∧
    confirmation_accepts [] = false ∧
    confirmation_accepts ['n'] = false ∧
    confirmation_accepts ['m', 'a', 'y', 'b', 'e'] = false := by
  refine ⟨fun e r => rfl, fun e => rfl, fun input => ?_, by decide, by decide,
    by decide, by decide, by decide, by decide, by decide, by decide⟩
  show Except.ok (confirmation_accepts input) = Except.ok true ↔ _
  rw [Except.ok.injEq]
  unfold confirmation_accepts
  rw [Bool.or_eq_true]

/-- Witness for `C5_prompt_confirmation`: a flush error propagates, and
the input `y` is accepted. -/
theorem C5_witness :
    prompt_confirmation (Except.error "broken pipe") (Except.ok ['y']) =
      Except.error "broken pipe" ∧
    (prompt_confirmation (Except.ok ()) (Except.ok ['y']) = Except.ok true ↔
      (eq_ignore_ascii_case (rust_trim ['y']) ['y'] = true ∨
       eq_ignore_ascii_case (rust_trim ['y']) ['y', 'e', 's'] = true)) :=
  ⟨C5_prompt_confirmation.1 "broken pipe" (Except.ok ['y']),
    C5_prompt_confirmation.2.2.1 ['y']⟩

/-! ## Claims C6 and C7 -/

theorem mem_opt_line {f : String → FactLine} {o : Option String}
    {l : FactLine} : l ∈ opt_line f o ↔ ∃ s, o = some s ∧ l = f s := by
  cases o <;> simp [opt_line]

theorem temporal_lines_all_temporal {fact : Fact} {l : FactLine}
    (h : l ∈ temporal_lines fact) : is_temporal_line l = true := by
  rcases fact with ⟨t, ft, act, ctx, os, oe, ed, ma, di⟩
  cases os with
  | none => cases ed <;> simp_all [temporal_lines, is_temporal_line]
  | some s =>
    cases oe with
    | none => simp_all [temporal_lines, is_temporal_line]
    | some e =>
      simp only [temporal_lines] at h
      split at h <;> simp_all [is_temporal_line]

theorem temporal_lines_ne_nil_iff (fact : Fact) :
    temporal_lines fact ≠ [] ↔
      (fact.occurred_start.isSome = true ∨ fact.event_date.isSome = true) := by
  rcases fact with ⟨t, ft, act, ctx, os, oe, ed, ma, di⟩
  cases os with
  | none => cases ed <;> simp [temporal_lines]
  | some s =>
    cases oe with
    | none => simp [temporal_lines]
    | some e => by_cases hse : s = e <;> simp [temporal_lines, hse]

theorem dateLine_mem_temporal_iff {fact : Fact} {d : String} :
    FactLine.dateLine d ∈ temporal_lines fact ↔
      (fact.occurred_start = none ∧ fact.event_date = some d) := by
  rcases fact with ⟨t, ft, act, ctx, os, oe, ed, ma, di⟩
  cases os with
  | none => cases ed <;> simp [temporal_lines, eq_comm]
  | some s =>
    cases oe with
    | none => simp [temporal_lines]
    | some e => by_cases hse : s = e <;> simp [temporal_lines, hse]

theorem dateLine_mem_print_fact_iff {fact : Fact} {sa : Bool} {d : String} :
    FactLine.dateLine d ∈ print_fact fact sa ↔
      FactLine.dateLine d ∈ temporal_lines fact := by
  simp [print_fact, mem_opt_line]

theorem mem_print_fact_of_temporal {fact : Fact} {sa : Bool} {l : FactLine}
    (h : l ∈ temporal_lines fact) : l ∈ print_fact fact sa := by
  simp [print_fact, h]

theorem exists_temporal_iff {fact : Fact} {sa : Bool} :
    (∃ l, l ∈ print_fact fact sa ∧ is_temporal_line l = true) ↔
      temporal_lines fact ≠ [] := by
  constructor
  · rintro ⟨l, hl, htl⟩
    intro hnil
    simp [print_fact, mem_opt_line, hnil] at hl
    rcases hl with h | h | ⟨s, _, h⟩ | ⟨s, _, h⟩ | ⟨s, _, h⟩ | h <;>
      subst h <;> simp [is_temporal_line] at htl
  · intro hne
    rcases List.exists_mem_of_ne_nil _ hne with ⟨l, hl⟩
    exact ⟨l, mem_print_fact_of_temporal hl, temporal_lines_all_temporal hl⟩

theorem contextLine_mem_iff {fact : Fact} {sa : Bool} {c : String} :
    FactLine.contextLine c ∈ print_fact fact sa ↔ fact.context = some c := by
  have ht : FactLine.contextLine c ∉ temporal_lines fact := fun h => by
    have := temporal_lines_all_temporal h
    simp [is_temporal_line] at this
  simp [print_fact, mem_opt_line, ht]

theorem mentionedLine_mem_iff {fact : Fact} {sa : Bool} {m : String} :
    FactLine.mentionedLine m ∈ print_fact fact sa ↔
      fact.mentioned_at = some m := by
  have ht : FactLine.mentionedLine m ∉ temporal_lines fact := fun h => by
    have := temporal_lines_all_temporal h
    simp [is_temporal_line] at this
  simp [print_fact, mem_opt_line, ht]

theorem documentLine_mem_iff {fact : Fact} {sa : Bool} {d : String} :
    FactLine.documentLine d ∈ print_fact fact sa ↔
      fact.document_id = some d := by
  have ht : FactLine.documentLine d ∉ temporal_lines fact := fun h => by
    have := temporal_lines_all_temporal h
    simp [is_temporal_line] at this
  simp [print_fact, mem_opt_line, ht]

/-- Claim C6 is false as stated: `print_fact` uses the legacy `Date`
phrasing on `fact_c6` even though `occurred_end` is present — the
fallback condition in the code only checks that `occurred_start` is
absent, not that both `occurred_start` and `occurred_end` are. -/
theorem C6_date_counterexample :
    FactLine.dateLine "2020-01-01" ∈ print_fact fact_c6 true ∧
      fact_c6.occurred_end = some "2021-06-01" := by
  constructor
  · decide
  · rfl

/-- Claim C6 (amended): `print_fact` uses the point phrasing when
`occurred_start` and `occurred_end` are present and equal, the range
phrasing when both are present and differ, and the legacy `Date`
phrasing exactly when `occurred_start` is absent and `event_date` is
present (`occurred_end` plays no role in the fallback). -/
theorem C6_temporal_phrasing (fact : Fact) (sa : Bool) :
    (∀ s e, fact.occurred_start = some s → fact.occurred_end = some e →
      s = e → FactLine.occurredPoint s ∈ print_fact fact sa) ∧
    (∀ s e, fact.occurred_start = some s → fact.occurred_end = some e →
      s ≠ e → FactLine.occurredRange s e ∈ print_fact fact sa) ∧
    ((∃ d, FactLine.dateLine d ∈ print_fact fact sa) ↔
      (fact.occurred_start = none ∧ fact.event_date.isSome = true)) := by
  refine ⟨?_, ?_, ?_⟩
  · intro s e hos hoe hse
    apply mem_print_fact_of_temporal
    simp [temporal_lines, hos, hoe, hse]
  · intro s e hos hoe hse
    apply mem_print_fact_of_temporal
    simp [temporal_lines, hos, hoe, hse]
  · constructor
    · rintro ⟨d, hd⟩
      have := dateLine_mem_temporal_iff.mp (dateLine_mem_print_fact_iff.mp hd)
      exact ⟨this.1, by simp [this.2]⟩
    · rintro ⟨hos, hed⟩
      rcases Option.isSome_iff_exists.mp hed with ⟨d, hd⟩
      exact ⟨d, dateLine_mem_print_fact_iff.mpr
        (dateLine_mem_temporal_iff.mpr ⟨hos, hd⟩)⟩

/-- Witness for `C6_temporal_phrasing`: the point phrasing on
`fact_point` and the range phrasing on `fact_range`. -/
theorem C6_witness :
    (fact_point.occurred_start = some "2024-01-01" ∧
      fact_point.occurred_end = some "2024-01-01" ∧
      FactLine.occurredPoint "2024-01-01" ∈ print_fact fact_point true) ∧
    (fact_range.occurred_start = some "2024-01-01" ∧
      fact_range.occurred_end = some "2024-02-01" ∧
      FactLine.occurredRange "2024-01-01" "2024-02-01" ∈
        print_fact fact_range true) :=
  ⟨⟨rfl, rfl, (C6_temporal_phrasing fact_point true).1 "2024-01-01"
      "2024-01-01" rfl rfl rfl⟩,
    ⟨rfl, rfl, (C6_temporal_phrasing fact_range true).2.1 "2024-01-01"
      "2024-02-01" rfl rfl (by decide)⟩⟩

/-- Claim C7 is false as stated: `fact_c7` has a temporal field
(`occurred_end`) present, yet `print_fact` prints no temporal line at
all — with `occurred_start` absent the code ignores `occurred_end`. -/
theorem C7_counterexample :
    (print_fact fact_c7 false).all (fun l => ! is_temporal_line l) = true ∧
      fact_c7.occurred_end = some "2022-05-05" := by
  constructor
  · decide
  · rfl

/-- Claim C7 (amended): `print_fact` prints the context, mentioned-at
and document-id lines exactly when the corresponding field is present
(absent fields produce no line at all), and prints a temporal line
exactly when `occurred_start` or `event_date` is present — an
`occurred_end` alone is ignored. -/
theorem C7_metadata_lines (fact : Fact) (sa : Bool) :
    ((∃ c, FactLine.contextLine c ∈ print_fact fact sa) ↔
      fact.context.isSome = true) ∧
    ((∃ l, l ∈ print_fact fact sa ∧ is_temporal_line l = true) ↔
      (fact.occurred_start.isSome = true ∨ fact.event_date.isSome = true)) ∧
    ((∃ m, FactLine.mentionedLine m ∈ print_fact fact sa) ↔
      fact.mentioned_at.isSome = true) ∧
    ((∃ d, FactLine.documentLine d ∈ print_fact fact sa) ↔
      fact.document_id.isSome = true) := by
  refine ⟨?_, ?_, ?_, ?_⟩
  · simp [contextLine_mem_iff, Option.isSome_iff_exists]
  · exact exists_temporal_iff.trans (temporal_lines_ne_nil_iff fact)
  · simp [mentionedLine_mem_iff, Option.isSome_iff_exists]
  · simp [documentLine_mem_iff, Option.isSome_iff_exists]

/-- Witness for `C7_metadata_lines` at the concrete fact `fact_point`. -/
theorem C7_witness :
    ((∃ c, FactLine.contextLine c ∈ print_fact fact_point true) ↔
      fact_point.context.isSome = true) ∧
    ((∃ l, l ∈ print_fact fact_point true ∧ is_temporal_line l = true) ↔
      (fact_point.occurred_start.isSome = true ∨
        fact_point.event_date.isSome = true)) ∧
    ((∃ m, FactLine.mentionedLine m ∈ print_fact fact_point true) ↔
      fact_point.mentioned_at.isSome = true) ∧
    ((∃ d, FactLine.documentLine d ∈ print_fact fact_point true) ↔
      fact_point.document_id.isSome = true) :=
  C7_metadata_lines fact_point true

/-! ## Claim C8 -/

theorem rust_iter_max_cons (x : ℕ) (xs : List ℕ) :
    rust_iter_max (x :: xs) =
      match rust_iter_max xs with
      | none => some x
      | some m => some (max x m) := rfl

theorem rust_iter_max_eq_foldr (l : List ℕ) (h : l ≠ []) :
    rust_iter_max l = some (l.foldr max 0) := by
  induction l with
  | nil => exact absurd rfl h
  | cons x xs ih =>
    cases xs with
    | nil => simp [rust_iter_max]
    | cons y ys =>
      rw [rust_iter_max_cons, ih (by simp)]
      rfl

/-- Claim C8: for a non-empty agent list the column width of
`print_agents_table` is the maximum of 8 and the longest `agent_id`
length, and for the empty list the function prints the section header
and the empty-state message only — no line containing a table border
character. -/
theorem C8_agents_table :
    (∀ agents : List Agent, agents ≠ [] →
      id_width agents =
        max 8 ((agents.map (fun a => utf8_len a.agent_id)).foldr max 0)) ∧
    print_agents_table [] =
      ["", "━━━ Agents (0) ━━━", "", "  No agents found."] ∧
    (print_agents_table []).all
      (fun line => border_chars.all (fun c => ! line.toList.contains c)) =
        true := by
  refine ⟨?_, by decide, by decide⟩
  intro agents hne
  unfold id_width
  rw [rust_iter_max_eq_foldr _ (by simpa using hne)]
  rw [Option.getD_some, Nat.max_comm]

/-- Witness for `C8_agents_table` on a single agent with a five-byte
id. -/
theorem C8_witness :
    ([Agent.mk "alpha".toList] : List Agent) ≠ [] ∧
      id_width [Agent.mk "alpha".toList] =
        max 8 (([Agent.mk "alpha".toList].map
          (fun a => utf8_len a.agent_id)).foldr max 0) :=
  ⟨List.cons_ne_nil _ _,
    C8_agents_table.1 [Agent.mk "alpha".toList] (List.cons_ne_nil _ _)⟩

/-- Witness for `C10_no_underflow` at values `1/4` (profile bar) and
`0 → 1/4` (delta bar). -/
theorem C10_witness :
    (0 : ℚ) ≤ 1/4 ∧ (1 : ℚ)/4 ≤ 1 ∧
    (bar_filled_count ((1 : ℚ)/4) ≤ 40 ∧
      ∃ b, profile_bar ((1 : ℚ)/4) = some b ∧ b.length = 40) ∧
    (∃ b, delta_bar (0 : ℚ) ((1 : ℚ)/4) = some b ∧ b.length = 40) :=
  ⟨by norm_num, by norm_num,
    C10_no_underflow.1 (1/4) (by norm_num) (by norm_num),
    C10_no_underflow.2 0 (1/4) (by norm_num) (by norm_num)⟩

end Ui
